import Mathlib

/-!
# Pcompress: content classifier and LZMA backend adapter

A shallow embedding of `filters/analyzer/analyzer.c` and `lzma_compress.c`.

* C `uint64_t` values are natural numbers, reduced modulo `2^64` at every
  arithmetic step that can wrap.
* C `int` values are integers; the code only compares and copies them.
* A buffer is a list of bytes; a pointer into a buffer is an offset.
-/

set_option linter.unusedVariables false
set_option maxRecDepth 8000

namespace Pcompress

/-! ## Machine types -/

/-- An unsigned byte (`uchar_t`, `Byte`). -/
abbrev uchar_t := Fin 256

/-- Modulus of `uint64_t` arithmetic. -/
def U64 : Nat := 2 ^ 64

/-- Wrapping `uint64_t` addition. -/
def u64_add (a b : Nat) : Nat := (a + b) % U64

/-- Wrapping `uint64_t` subtraction. -/
def u64_sub (a b : Nat) : Nat := (a + U64 - b % U64) % U64

/-! ## Content classifier (`filters/analyzer/analyzer.c`) -/

/-- Modelled from the spec: the Content Type tag, "an enumerated tag over
{TEXT, UNKNOWN}". The constants `TYPE_UNKNOWN` and `TYPE_TEXT` are declared in
`utils.h`, which is not among the sources; only their being distinct matters. -/
inductive ContentType where
  | TYPE_UNKNOWN
  | TYPE_TEXT
  deriving DecidableEq, Repr

export ContentType (TYPE_UNKNOWN TYPE_TEXT)

/-- The two accumulators of the scan loop. -/
structure Counters where
  tot8b : Nat
  lbytes : Nat
  deriving DecidableEq, Repr

/-- One iteration of the loop body, lines 41-43:
`tot8b += (cur_byte & 0x80); lbytes += (cur_byte < 32);`. -/
def analyze_step (acc : Counters) (cur_byte : uchar_t) : Counters :=
  { tot8b := u64_add acc.tot8b (cur_byte.val &&& 0x80)
    lbytes := u64_add acc.lbytes (if cur_byte.val < 32 then 1 else 0) }

/-- The loop `for (i = 0; i < srclen; i++)`, started from both counters at 0.
It visits the first `srclen` bytes of `src` in order. -/
def analyze_loop (src : List uchar_t) (srclen : Nat) : Counters :=
  (src.take srclen).foldl analyze_step { tot8b := 0, lbytes := 0 }

/-- The function `analyze_buffer(void *src, uint64_t srclen)`. -/
def analyze_buffer (src : List uchar_t) (srclen : Nat) : ContentType :=
  let c := analyze_loop src srclen
  let tot8b := c.tot8b / 0x80
  if tot8b = 0 ∧
      c.lbytes < u64_add (u64_add (srclen >>> 1) (srclen >>> 2)) (srclen >>> 3) then
    TYPE_TEXT
  else
    TYPE_UNKNOWN

/-! ### Counting vocabulary used by the statements -/

/-- Number of bytes with the most-significant bit set. -/
def high_bit_count (src : List uchar_t) : Nat :=
  src.countP (fun b => decide (128 ≤ b.val))

/-- Number of control bytes, those with value below 32. -/
def control_count (src : List uchar_t) : Nat :=
  src.countP (fun b => decide (b.val < 32))

/-! ## LZMA backend adapter (`lzma_compress.c`) -/

/-- Line 33: `#define SZ_ERROR_DESTLEN 100`. -/
def SZ_ERROR_DESTLEN : Int := 100

/-- Line 34: `#define LZMA_DEFAULT_DICT (1 << 24)`. -/
def LZMA_DEFAULT_DICT : Nat := 1 <<< 24

/-- Modelled from the spec: the fixed header size `LZMA_PROPS_SIZE`, declared in
the engine's `LzmaEnc.h`, which is not among the sources. The spec's wire format
is "byte 0 is a packed properties byte; bytes 1–4 are the dictionary size as a
4-byte little-endian integer", five bytes in all. -/
def LZMA_PROPS_SIZE : Nat := 5

/-- Modelled from the spec: the Algorithm Properties record `CLzmaEncProps`,
declared in the engine's `LzmaEnc.h`, which is not among the sources: "a mutable
tuning record (dictionary size, fast-bytes, match-cycles, thread count, numeric
compression level)", together with the field `litprob_sz` that `lzma_init`
reads. -/
structure CLzmaEncProps where
  level : Int
  dictSize : Nat
  fb : Int
  mc : Nat
  numThreads : Int
  litprob_sz : Nat
  deriving DecidableEq, Repr

/-- The direction argument `compress_op_t`. -/
inductive compress_op_t where
  | COMPRESS
  | DECOMPRESS
  deriving DecidableEq, Repr

export compress_op_t (COMPRESS DECOMPRESS)

/-- The capability record `algo_props_t`, restricted to the fields the backend
assigns. -/
structure algo_props_t where
  compress_mt_capable : Int
  decompress_mt_capable : Int
  buf_extra : Nat
  c_max_threads : Int
  delta2_span : Int
  deriving DecidableEq, Repr

/-- What one `LzmaEncode` call leaves behind. -/
structure EncodeOut where
  /-- The returned `SRes`. -/
  res : Int
  /-- The bytes stored through the `dest` pointer. -/
  dest : List uchar_t
  /-- The value left in `*destLen`. -/
  destLen : Nat
  /-- The bytes stored through the `propsEncoded` pointer. -/
  propsEncoded : List uchar_t

/-- What one `LzmaDecode` call leaves behind. -/
structure DecodeOut where
  /-- The returned `SRes`. -/
  res : Int
  /-- The bytes stored through the `dest` pointer. -/
  dest : List uchar_t
  /-- The value left in `*destLen`. -/
  destLen : Nat

/-- The external collaborators of `lzma_compress.c`: the LZMA engine
(`LzmaEnc.h`, `LzmaDec.h`), its result codes, and the slab allocator. None of
them is among the sources, so the adapter is verified for every choice of them. -/
structure LzmaSdk where
  SZ_OK : Int
  SZ_ERROR_DATA : Int
  SZ_ERROR_MEM : Int
  SZ_ERROR_UNSUPPORTED : Int
  SZ_ERROR_PARAM : Int
  SZ_ERROR_INPUT_EOF : Int
  SZ_ERROR_OUTPUT_EOF : Int
  SZ_ERROR_WRITE : Int
  SZ_ERROR_PROGRESS : Int
  /-- Contents of the block returned by `slab_alloc(NULL, sizeof (CLzmaEncProps))`. -/
  slab_alloc : CLzmaEncProps
  /-- The effect of `LzmaEncProps_Init(p)` on the record. -/
  LzmaEncProps_Init : CLzmaEncProps → CLzmaEncProps
  /-- The effect of `LzmaEncProps_Normalize(p)` on the record. -/
  LzmaEncProps_Normalize : CLzmaEncProps → CLzmaEncProps
  /-- The call `LzmaEncode(dest, &destLen, src, srcLen, props, propsEncoded,
  &propsSize, writeEndMark, NULL, &g_Alloc, &g_Alloc)`, as a function of the
  capacity `destLen`, the source bytes, the properties record, the capacity
  `propsSize` and `writeEndMark`. -/
  LzmaEncode : Nat → List uchar_t → CLzmaEncProps → Nat → Int → EncodeOut
  /-- The call `LzmaDecode(dest, &destLen, src, &srcLen, propData, propSize,
  LZMA_FINISH_ANY, &status, &g_Alloc)`, as a function of the capacity `destLen`,
  the source bytes and the property bytes. -/
  LzmaDecode : Nat → List uchar_t → List uchar_t → DecodeOut

/-- Overwrite `buf` from offset `off` on with `bytes`. -/
def write_at (buf : List uchar_t) (off : Nat) (bytes : List uchar_t) : List uchar_t :=
  buf.take off ++ bytes ++ buf.drop (off + bytes.length)

/-- The function `lzma_mt_props`: the assignments to `*data`. -/
def lzma_mt_props (data : algo_props_t) (level : Int) (chunksize : Nat) : algo_props_t :=
  { data with
    compress_mt_capable := 1
    decompress_mt_capable := 0
    buf_extra := 0
    c_max_threads := 2
    delta2_span := 150 }

/-- The function `lzma_props`: the assignments to `*data`. -/
def lzma_props (data : algo_props_t) (level : Int) (chunksize : Nat) : algo_props_t :=
  { data with
    compress_mt_capable := 0
    decompress_mt_capable := 0
    buf_extra := 0
    delta2_span := 150 }

/-- Lines 74-120 of `lzma_init`: the record as it stands when it is handed to
`LzmaEncProps_Normalize`. -/
def lzma_init_construct (E : LzmaSdk) (level : Int) (nthreads : Int) : CLzmaEncProps :=
  let p0 := E.LzmaEncProps_Init E.slab_alloc
  let p1 : CLzmaEncProps :=
    if level < 8 then { p0 with dictSize := LZMA_DEFAULT_DICT }
    else { p0 with dictSize := 0 }
  let p2 : CLzmaEncProps :=
    if level < 7 then { p1 with fb := 32 }
    else if level < 10 then { p1 with fb := 64 }
    else if level = 11 then { p1 with fb := 64, mc := 128 }
    else if level = 12 then { p1 with fb := 128, mc := 256 }
    else if level = 13 then { p1 with fb := 64, mc := 128, dictSize := 1 <<< 27 }
    else if level = 14 then { p1 with fb := 128, mc := 256, dictSize := 1 <<< 28 }
    else p1
  let level1 : Int := if level > 9 then 9 else level
  { p2 with level := level1, numThreads := nthreads }

/-- The observable outcome of `lzma_init`. -/
structure InitOut where
  /-- The return value. -/
  ret : Int
  /-- The caller's `*level` afterwards. -/
  level : Int
  /-- The handle `*data`: null, or the shared record it points to. -/
  data : Option CLzmaEncProps
  /-- The global `p` afterwards. -/
  p : Option CLzmaEncProps
  deriving DecidableEq, Repr

/-- The function `lzma_init`, in the state where the global pointer is `p`.
The bookkeeping call `slab_cache_add` touches the allocator only. -/
def lzma_init (E : LzmaSdk) (p : Option CLzmaEncProps) (level : Int) (nthreads : Int)
    (chunksize : Nat) (file_version : Int) (op : compress_op_t) : InitOut :=
  let constructs : Bool := p.isNone && decide (op = COMPRESS)
  let p1 : Option CLzmaEncProps :=
    if constructs then
      some (E.LzmaEncProps_Normalize (lzma_init_construct E level nthreads))
    else p
  let level1 : Int := if constructs then (if level > 9 then 9 else level) else level
  let level2 : Int := if level1 > 9 then 9 else level1
  { ret := 0, level := level2, data := p1, p := p1 }

/-- The observable outcome of `lzma_deinit`. -/
structure DeinitOut where
  ret : Int
  data : Option CLzmaEncProps
  p : Option CLzmaEncProps
  deriving DecidableEq, Repr

/-- The function `lzma_deinit`. -/
def lzma_deinit (p : Option CLzmaEncProps) : DeinitOut :=
  { ret := 0, data := none, p := none }

/-- The function `lzerr`: the text it prints on the error stream, if any. The
`switch` is read top to bottom. -/
def lzerr (E : LzmaSdk) (err : Int) (cmp : Int) : Option String :=
  if err = E.SZ_ERROR_MEM then some "LZMA: Memory allocation error\n"
  else if err = E.SZ_ERROR_PARAM then some "LZMA: Incorrect paramater\n"
  else if err = E.SZ_ERROR_WRITE then some "LZMA: Write callback error\n"
  else if err = E.SZ_ERROR_PROGRESS then some "LZMA: Progress callback errored\n"
  else if err = E.SZ_ERROR_INPUT_EOF then some "LZMA: More compressed input bytes expected\n"
  else if err = E.SZ_ERROR_OUTPUT_EOF then
    (if cmp = 0 then some "LZMA: Output buffer overflow\n" else none)
  else if err = E.SZ_ERROR_UNSUPPORTED then some "LZMA: Unsupported properties\n"
  else if err = SZ_ERROR_DESTLEN then some "LZMA: Output chunk size too small\n"
  else if err = E.SZ_ERROR_DATA then some "LZMA: Data Error\n"
  else some ("LZMA: Unknown error code: " ++ toString err ++ "\n")

/-- The arguments of one `LzmaEncode` call. Pointers into the destination
buffer are offsets from `dst`. -/
structure EncodeCall where
  /-- Offset of the `dest` pointer. -/
  dest : Nat
  /-- The capacity `*destLen` on entry. -/
  destLen : Nat
  srcLen : Nat
  props : CLzmaEncProps
  /-- Offset of the `propsEncoded` pointer. -/
  propsEncoded : Nat
  /-- The capacity `*propsSize` on entry. -/
  propsSize : Nat
  writeEndMark : Int
  deriving DecidableEq, Repr

/-- The observable outcome of `lzma_compress`. -/
structure CompressOut where
  /-- The return value. -/
  ret : Int
  /-- The destination buffer afterwards. -/
  dst : List uchar_t
  /-- The caller's `*dstlen` afterwards. -/
  dstlen : Nat
  /-- The record behind the handle `data` afterwards. -/
  data : Option CLzmaEncProps
  /-- The engine invocations made, in order. -/
  calls : List EncodeCall
  /-- The text printed on the error stream. -/
  diag : Option String
  deriving DecidableEq, Repr

/-- The function `lzma_compress`. The result is `none` when the call
dereferences a null handle. -/
def lzma_compress (E : LzmaSdk) (src : List uchar_t) (srclen : Nat) (dst : List uchar_t)
    (dstlen : Nat) (level : Int) (chdr : uchar_t) (data : Option CLzmaEncProps) :
    Option CompressOut :=
  let props_len : Nat := LZMA_PROPS_SIZE
  if dstlen < LZMA_PROPS_SIZE then
    some { ret := -1, dst := dst, dstlen := dstlen, data := data, calls := [],
           diag := lzerr E SZ_ERROR_DESTLEN 1 }
  else
    match data with
    | none => none
    | some props0 =>
      let props : CLzmaEncProps := { props0 with level := level }
      let dstlen1 := u64_sub dstlen LZMA_PROPS_SIZE
      let call : EncodeCall :=
        { dest := LZMA_PROPS_SIZE, destLen := dstlen1, srcLen := srclen, props := props,
          propsEncoded := 0, propsSize := props_len, writeEndMark := 0 }
      let out := E.LzmaEncode dstlen1 (src.take srclen) props props_len 0
      let dst1 := write_at (write_at dst 0 out.propsEncoded) LZMA_PROPS_SIZE out.dest
      if out.res ≠ 0 then
        some { ret := -1, dst := dst1, dstlen := out.destLen, data := some props,
               calls := [call], diag := lzerr E out.res 1 }
      else
        some { ret := 0, dst := dst1, dstlen := u64_add out.destLen LZMA_PROPS_SIZE,
               data := some props, calls := [call], diag := none }

/-- The arguments of one `LzmaDecode` call. Pointers into the source buffer are
offsets from `src`. -/
structure DecodeCall where
  /-- The capacity `*destLen` on entry. -/
  destLen : Nat
  /-- Offset of the `src` pointer. -/
  src : Nat
  /-- The length `*srcLen` on entry. -/
  srcLen : Nat
  /-- Offset of the `propData` pointer. -/
  propData : Nat
  propSize : Nat
  deriving DecidableEq, Repr

/-- The observable outcome of `lzma_decompress`. -/
structure DecompressOut where
  /-- The return value. -/
  ret : Int
  /-- The destination buffer afterwards. -/
  dst : List uchar_t
  /-- The caller's `*dstlen` afterwards. -/
  dstlen : Nat
  /-- The record behind the handle `data` afterwards. -/
  data : Option CLzmaEncProps
  /-- The engine invocation made. -/
  call : DecodeCall
  /-- The text printed on the error stream. -/
  diag : Option String
  deriving DecidableEq, Repr

/-- The function `lzma_decompress`. The engine is shown the bytes of the
source buffer that lie at and after each pointer it is given, up to the stated
length. -/
def lzma_decompress (E : LzmaSdk) (src : List uchar_t) (srclen : Nat) (dst : List uchar_t)
    (dstlen : Nat) (level : Int) (chdr : uchar_t) (data : Option CLzmaEncProps) :
    DecompressOut :=
  let _srclen := u64_sub srclen LZMA_PROPS_SIZE
  let _src := LZMA_PROPS_SIZE
  let call : DecodeCall :=
    { destLen := dstlen, src := _src, srcLen := _srclen, propData := 0,
      propSize := LZMA_PROPS_SIZE }
  let out := E.LzmaDecode dstlen ((src.drop _src).take _srclen) (src.take LZMA_PROPS_SIZE)
  let dst1 := write_at dst 0 out.dest
  if out.res ≠ E.SZ_OK then
    { ret := -1, dst := dst1, dstlen := out.destLen, data := data, call := call,
      diag := lzerr E out.res 0 }
  else
    { ret := 0, dst := dst1, dstlen := out.destLen, data := data, call := call,
      diag := none }

/-! ### A concrete engine for evaluating the adapter

A stand-in for the LZMA engine that stores its input verbatim behind a header
of five zero bytes. It is used only to evaluate the definitions above on
concrete inputs. -/

/-- The record written by the stand-in `LzmaEncProps_Init`. -/
def store_props : CLzmaEncProps :=
  { level := 5, dictSize := 0, fb := -1, mc := 0, numThreads := -1, litprob_sz := 0 }

/-- The stand-in engine. -/
def store_sdk : LzmaSdk where
  SZ_OK := 0
  SZ_ERROR_DATA := 1
  SZ_ERROR_MEM := 2
  SZ_ERROR_UNSUPPORTED := 4
  SZ_ERROR_PARAM := 5
  SZ_ERROR_INPUT_EOF := 6
  SZ_ERROR_OUTPUT_EOF := 7
  SZ_ERROR_WRITE := 9
  SZ_ERROR_PROGRESS := 10
  slab_alloc := store_props
  LzmaEncProps_Init := fun _ => store_props
  LzmaEncProps_Normalize := fun r => r
  LzmaEncode := fun destLen src _ propsSize _ =>
    if propsSize < 5 then { res := 5, dest := [], destLen := destLen, propsEncoded := [] }
    else if destLen < src.length then
      { res := 7, dest := src.take destLen, destLen := destLen, propsEncoded := [0, 0, 0, 0, 0] }
    else { res := 0, dest := src, destLen := src.length, propsEncoded := [0, 0, 0, 0, 0] }
  LzmaDecode := fun destLen src _ =>
    { res := 0, dest := src.take destLen, destLen := min destLen src.length }

/-- A second stand-in engine, which differs from the storing one in that its
decoder rejects, with the data-error code, any header other than five zero
bytes. -/
def strict_sdk : LzmaSdk :=
  { store_sdk with
    LzmaDecode := fun destLen src propData =>
      if propData = [0, 0, 0, 0, 0] then
        { res := 0, dest := src.take destLen, destLen := min destLen src.length }
      else { res := 1, dest := [], destLen := 0 } }

/-- The assumption under which the adapter's round trip is stated: the engine
itself round-trips. Whenever `LzmaEncode`, given room for a five-byte header,
reports success, it has stored exactly the `destLen` bytes it reports, within
the capacity it was given, together with five header bytes; and `LzmaDecode`,
given that payload, that header and room for exactly the original length,
reports success and stores the original input. -/
def EngineRoundTrips (E : LzmaSdk) : Prop :=
  ∀ (destLen : Nat) (src : List uchar_t) (props : CLzmaEncProps) (writeEndMark : Int),
    (E.LzmaEncode destLen src props LZMA_PROPS_SIZE writeEndMark).res = 0 →
      (E.LzmaEncode destLen src props LZMA_PROPS_SIZE writeEndMark).dest.length
          = (E.LzmaEncode destLen src props LZMA_PROPS_SIZE writeEndMark).destLen ∧
      (E.LzmaEncode destLen src props LZMA_PROPS_SIZE writeEndMark).destLen ≤ destLen ∧
      (E.LzmaEncode destLen src props LZMA_PROPS_SIZE writeEndMark).propsEncoded.length
          = LZMA_PROPS_SIZE ∧
      E.LzmaDecode src.length
          (E.LzmaEncode destLen src props LZMA_PROPS_SIZE writeEndMark).dest
          (E.LzmaEncode destLen src props LZMA_PROPS_SIZE writeEndMark).propsEncoded
        = { res := E.SZ_OK, dest := src, destLen := src.length }

/-! ### Lemmas about the scan -/

set_option maxRecDepth 100000 in
theorem and_0x80 (b : uchar_t) :
    b.val &&& 0x80 = if 128 ≤ b.val then 128 else 0 := by
  revert b
  decide

theorem high_bit_count_cons (b : uchar_t) (l : List uchar_t) :
    high_bit_count (b :: l) = high_bit_count l + (if 128 ≤ b.val then 1 else 0) := by
  simp [high_bit_count, List.countP_cons]

theorem control_count_cons (b : uchar_t) (l : List uchar_t) :
    control_count (b :: l) = control_count l + (if b.val < 32 then 1 else 0) := by
  simp [control_count, List.countP_cons]

theorem high_bit_count_le (l : List uchar_t) : high_bit_count l ≤ l.length :=
  List.countP_le_length _

theorem control_count_le (l : List uchar_t) : control_count l ≤ l.length :=
  List.countP_le_length _

theorem high_bit_count_eq_zero (l : List uchar_t) :
    high_bit_count l = 0 ↔ ∀ b ∈ l, b.val < 128 := by
  simp [high_bit_count, List.countP_eq_zero]

theorem U64_pos : 0 < U64 := by decide

/-- The loop computes both sums modulo `2^64`. -/
theorem foldl_analyze_step (l : List uchar_t) (acc : Counters)
    (ht : acc.tot8b < U64) (hl : acc.lbytes < U64) :
    l.foldl analyze_step acc =
      { tot8b := (acc.tot8b + 128 * high_bit_count l) % U64
        lbytes := (acc.lbytes + control_count l) % U64 } := by
  induction l generalizing acc with
  | nil =>
    simp [high_bit_count, control_count, Nat.mod_eq_of_lt ht, Nat.mod_eq_of_lt hl]
  | cons b l ih =>
    rw [List.foldl_cons,
      ih _ (by simp only [analyze_step, u64_add]; exact Nat.mod_lt _ U64_pos)
        (by simp only [analyze_step, u64_add]; exact Nat.mod_lt _ U64_pos),
      high_bit_count_cons, control_count_cons]
    simp only [analyze_step, u64_add, and_0x80]
    have h1 : ((acc.tot8b + if 128 ≤ b.val then 128 else 0) % U64 + 128 * high_bit_count l) % U64
        = (acc.tot8b + 128 * (high_bit_count l + if 128 ≤ b.val then 1 else 0)) % U64 := by
      rw [Nat.add_mod, Nat.mod_mod, ← Nat.add_mod]
      congr 1
      split <;> omega
    have h2 : ((acc.lbytes + if b.val < 32 then 1 else 0) % U64 + control_count l) % U64
        = (acc.lbytes + (control_count l + if b.val < 32 then 1 else 0)) % U64 := by
      rw [Nat.add_mod, Nat.mod_mod, ← Nat.add_mod]
      congr 1
      omega
    rw [h1, h2]

/-- Closed form of the scan over a whole buffer. -/
theorem analyze_loop_eq (src : List uchar_t) :
    analyze_loop src src.length =
      { tot8b := (128 * high_bit_count src) % U64
        lbytes := control_count src % U64 } := by
  unfold analyze_loop
  rw [List.take_length, foldl_analyze_step _ _ U64_pos U64_pos]
  simp

/-- The three right shifts never overflow 64 bits. -/
theorem threshold_eq (n : Nat) (hn : n < U64) :
    u64_add (u64_add (n >>> 1) (n >>> 2)) (n >>> 3) = n / 2 + n / 4 + n / 8 := by
  have h1 : n >>> 1 = n / 2 := by simp [Nat.shiftRight_eq_div_pow]
  have h2 : n >>> 2 = n / 4 := by simp [Nat.shiftRight_eq_div_pow]
  have h3 : n >>> 3 = n / 8 := by simp [Nat.shiftRight_eq_div_pow]
  rw [h1, h2, h3]
  unfold u64_add
  unfold U64 at *
  omega

/-- The verdict on a buffer whose high-bit accumulator does not wrap. -/
theorem analyze_buffer_eq (src : List uchar_t) (hlen : src.length < U64)
    (hhb : 128 * high_bit_count src < U64) :
    analyze_buffer src src.length =
      if high_bit_count src = 0 ∧
          control_count src < src.length / 2 + src.length / 4 + src.length / 8 then
        TYPE_TEXT
      else
        TYPE_UNKNOWN := by
  have hc := control_count_le src
  unfold analyze_buffer
  simp only [analyze_loop_eq, threshold_eq _ hlen]
  have e1 : (128 * high_bit_count src) % U64 = 128 * high_bit_count src :=
    Nat.mod_eq_of_lt hhb
  have e2 : control_count src % U64 = control_count src :=
    Nat.mod_eq_of_lt (by omega)
  rw [e1, e2]
  have e3 : 128 * high_bit_count src / 0x80 = high_bit_count src := by omega
  rw [e3]

theorem high_bit_bound (src : List uchar_t) (hn : src.length < 2 ^ 57) :
    src.length < U64 ∧ 128 * high_bit_count src < U64 := by
  have hb := high_bit_count_le src
  have hU : U64 = 2 ^ 64 := rfl
  rw [hU]
  omega

/-! ## The classifier's contract -/

/-- C1: for every buffer of length n < 2^57, `analyze_buffer` returns `TYPE_TEXT`
if and only if no byte has its most-significant bit set and the number of bytes
below 32 is strictly less than n/2 + n/4 + n/8 (each rounded down); in every
other case it returns `TYPE_UNKNOWN`. -/
theorem analyze_buffer_text_iff (src : List uchar_t) (hn : src.length < 2 ^ 57) :
    (analyze_buffer src src.length = TYPE_TEXT ↔
      (∀ b ∈ src, b.val < 128) ∧
        control_count src < src.length / 2 + src.length / 4 + src.length / 8) ∧
    (¬ ((∀ b ∈ src, b.val < 128) ∧
        control_count src < src.length / 2 + src.length / 4 + src.length / 8) →
      analyze_buffer src src.length = TYPE_UNKNOWN) := by
  obtain ⟨hlen, hhb⟩ := high_bit_bound src hn
  rw [analyze_buffer_eq src hlen hhb, ← high_bit_count_eq_zero]
  constructor
  · constructor
    · intro h
      by_contra hc
      rw [if_neg hc] at h
      exact absurd h (by decide)
    · intro h
      rw [if_pos h]
  · intro h
    rw [if_neg h]

/-- C1, evaluated on the two bytes "ab". -/
theorem analyze_buffer_text_iff_witness :
    ([97, 98] : List uchar_t).length < 2 ^ 57 ∧
      (analyze_buffer [97, 98] ([97, 98] : List uchar_t).length = TYPE_TEXT ↔
        (∀ b ∈ ([97, 98] : List uchar_t), b.val < 128) ∧
          control_count [97, 98] <
            ([97, 98] : List uchar_t).length / 2 + ([97, 98] : List uchar_t).length / 4
              + ([97, 98] : List uchar_t).length / 8) :=
  ⟨by decide, (analyze_buffer_text_iff [97, 98] (by decide)).1⟩

/-- C9, as stated, fails: the one-byte buffer "a" is printable ASCII, yet its
threshold 1/2 + 1/4 + 1/8 rounds down to 0 and the verdict is `TYPE_UNKNOWN`. -/
theorem printable_single_byte_unknown :
    (∀ b ∈ ([97] : List uchar_t), 32 ≤ b.val ∧ b.val ≤ 127) ∧
      analyze_buffer [97] ([97] : List uchar_t).length ≠ TYPE_TEXT := by
  refine ⟨by decide, ?_⟩
  simp [analyze_buffer, analyze_loop, analyze_step, u64_add, U64]

/-- C9, amended: every buffer of at least two bytes (and of a length that fits
`uint64_t`) consisting only of printable ASCII bytes, each in 32..127, is
classified `TYPE_TEXT`. -/
theorem analyze_buffer_printable (src : List uchar_t) (hlen : src.length < 2 ^ 64)
    (h2 : 2 ≤ src.length) (hp : ∀ b ∈ src, 32 ≤ b.val ∧ b.val ≤ 127) :
    analyze_buffer src src.length = TYPE_TEXT := by
  have hb : high_bit_count src = 0 :=
    (high_bit_count_eq_zero src).2 (fun b hb => by have := hp b hb; omega)
  have hc : control_count src = 0 := by
    simp only [control_count, List.countP_eq_zero]
    intro b hb
    have := hp b hb
    simp
    omega
  rw [analyze_buffer_eq src hlen (by rw [hb, Nat.mul_zero]; exact U64_pos), if_pos]
  rw [hb, hc]
  refine ⟨rfl, ?_⟩
  omega

/-- C9 amended, evaluated on the two bytes "ab". -/
theorem analyze_buffer_printable_witness :
    analyze_buffer [97, 98] ([97, 98] : List uchar_t).length = TYPE_TEXT :=
  analyze_buffer_printable [97, 98] (by decide) (by decide) (by decide)

/-- C10: every buffer of length n < 2^57 that contains at least one byte with
the most-significant bit set is classified `TYPE_UNKNOWN`, whatever the other
bytes are. -/
theorem analyze_buffer_high_bit (src : List uchar_t) (hn : src.length < 2 ^ 57)
    (hb : ∃ b ∈ src, 128 ≤ b.val) :
    analyze_buffer src src.length = TYPE_UNKNOWN := by
  obtain ⟨hlen, hhb⟩ := high_bit_bound src hn
  rw [analyze_buffer_eq src hlen hhb, if_neg]
  rintro ⟨h, -⟩
  obtain ⟨b, hmem, hge⟩ := hb
  have := (high_bit_count_eq_zero src).1 h b hmem
  omega

/-- C10, evaluated on a buffer whose second byte is 0x80. -/
theorem analyze_buffer_high_bit_witness :
    analyze_buffer [97, 128, 98] ([97, 128, 98] : List uchar_t).length = TYPE_UNKNOWN :=
  analyze_buffer_high_bit [97, 128, 98] (by decide) ⟨128, by decide, by decide⟩

/-! ## The level presets of `lzma_init` -/

/-- C3: when `lzma_init` constructs the properties record (no singleton exists
and the direction is COMPRESS) from input level L, the dictionary size in the
record it hands to the engine's normalisation is 1<<24 for every L < 8, 1<<27
for L = 13, 1<<28 for L = 14, and 0 for every other L >= 8. -/
theorem lzma_init_dictSize (E : LzmaSdk) (L nthreads : Int) (chunksize : Nat)
    (file_version : Int) :
    (lzma_init E none L nthreads chunksize file_version COMPRESS).p
        = some (E.LzmaEncProps_Normalize (lzma_init_construct E L nthreads)) ∧
    (lzma_init_construct E L nthreads).dictSize
        = if L < 8 then 2 ^ 24 else if L = 13 then 2 ^ 27 else if L = 14 then 2 ^ 28 else 0 := by
  refine ⟨rfl, ?_⟩
  unfold lzma_init_construct
  simp only [LZMA_DEFAULT_DICT]
  split_ifs <;> first | rfl | omega

/-- C4: when `lzma_init` constructs the properties record from input level L,
fast-bytes is 32 for L < 7 and 64 for L in 7..9, with match-cycles left at the
engine's initial value; (fast-bytes, match-cycles) is (64, 128) for L = 11,
(128, 256) for L = 12, (64, 128) for L = 13, (128, 256) for L = 14; for L = 10
and every L >= 15 both stay at the engine's initial values. In particular
level 6 gives fast-bytes 32. -/
theorem lzma_init_fb_mc (E : LzmaSdk) (L nthreads : Int) (chunksize : Nat)
    (file_version : Int) :
    (lzma_init E none L nthreads chunksize file_version COMPRESS).p
        = some (E.LzmaEncProps_Normalize (lzma_init_construct E L nthreads)) ∧
    ((lzma_init_construct E L nthreads).fb, (lzma_init_construct E L nthreads).mc)
        = (if L < 7 then (32, (E.LzmaEncProps_Init E.slab_alloc).mc)
           else if L ≤ 9 then (64, (E.LzmaEncProps_Init E.slab_alloc).mc)
           else if L = 11 then (64, 128)
           else if L = 12 then (128, 256)
           else if L = 13 then (64, 128)
           else if L = 14 then (128, 256)
           else ((E.LzmaEncProps_Init E.slab_alloc).fb, (E.LzmaEncProps_Init E.slab_alloc).mc)) ∧
    (lzma_init_construct E 6 nthreads).fb = 32 := by
  refine ⟨rfl, ?_, rfl⟩
  unfold lzma_init_construct
  simp only []
  split_ifs <;> first | rfl | omega

/-- C5: for every input level L, every direction and every prior state of the
singleton, `lzma_init` returns 0 and leaves min(L, 9) in the caller's level
variable; and when the call constructs the properties record, the level field
it stores in the record, as handed to the engine's normalisation, is also
min(L, 9), so that every level from 9 up stores the same engine level as
level 9. -/
theorem lzma_init_clamps (E : LzmaSdk) (p : Option CLzmaEncProps) (L nthreads : Int)
    (chunksize : Nat) (file_version : Int) (op : compress_op_t) :
    (lzma_init E p L nthreads chunksize file_version op).ret = 0 ∧
    (lzma_init E p L nthreads chunksize file_version op).level = min L 9 ∧
    (lzma_init E none L nthreads chunksize file_version COMPRESS).p
        = some (E.LzmaEncProps_Normalize (lzma_init_construct E L nthreads)) ∧
    (lzma_init_construct E L nthreads).level = min L 9 ∧
    (lzma_init_construct E (max L 9) nthreads).level
        = (lzma_init_construct E 9 nthreads).level := by
  refine ⟨rfl, ?_, rfl, ?_, ?_⟩
  · simp only [lzma_init]
    split_ifs <;> omega
  · simp only [lzma_init_construct]
    split_ifs <;> omega
  · simp only [lzma_init_construct]
    split_ifs <;> omega

/-! ## Compress and decompress -/

theorem u64_sub_props (c : Nat) (h5 : 5 ≤ c) (hc : c < 2 ^ 64) :
    u64_sub c LZMA_PROPS_SIZE = c - 5 := by
  unfold u64_sub LZMA_PROPS_SIZE U64
  omega

theorem u64_add_props (n : Nat) (hn : n + 5 < 2 ^ 64) :
    u64_add n LZMA_PROPS_SIZE = n + 5 := by
  unfold u64_add LZMA_PROPS_SIZE U64
  omega

/-- A five-byte header written at offset 0 followed by a payload written at
offset 5 lie back to back at the front of the buffer. -/
theorem write_header_payload (dst hdr payload : List uchar_t) (hh : hdr.length = 5) :
    write_at (write_at dst 0 hdr) 5 payload
      = hdr ++ payload ++ (hdr ++ dst.drop 5).drop (5 + payload.length) := by
  simp [write_at, hh, List.take_append_of_le_length]

/-- Reading back the first `5 + n` bytes of a header followed by an `n`-byte
payload gives the header and the payload. -/
theorem take_header_payload (hdr payload rest : List uchar_t) (hh : hdr.length = 5) :
    (hdr ++ payload ++ rest).take (payload.length + 5) = hdr ++ payload := by
  have : payload.length + 5 = (hdr ++ payload).length := by simp [hh]; omega
  rw [this, List.take_left]

/-- When the singleton is requested for compression the handle is never null. -/
theorem lzma_init_compress_handle (E : LzmaSdk) (p : Option CLzmaEncProps) (L nthreads : Int)
    (chunksize : Nat) (file_version : Int) :
    ∃ props0, (lzma_init E p L nthreads chunksize file_version COMPRESS).data = some props0 := by
  cases p with
  | none => exact ⟨_, rfl⟩
  | some r => exact ⟨r, rfl⟩

/-- The outcome of `lzma_decompress` on a segment made of a five-byte header
and a payload. -/
theorem lzma_decompress_segment (E : LzmaSdk) (hdr payload dst : List uchar_t) (dstlen : Nat)
    (level : Int) (chdr : uchar_t) (data : Option CLzmaEncProps)
    (hh : hdr.length = 5) (hp : payload.length + 5 < 2 ^ 64) :
    lzma_decompress E (hdr ++ payload) (payload.length + 5) dst dstlen level chdr data =
      { ret := if (E.LzmaDecode dstlen payload hdr).res ≠ E.SZ_OK then -1 else 0
        dst := write_at dst 0 (E.LzmaDecode dstlen payload hdr).dest
        dstlen := (E.LzmaDecode dstlen payload hdr).destLen
        data := data
        call := { destLen := dstlen, src := 5, srcLen := payload.length, propData := 0,
                  propSize := 5 }
        diag := if (E.LzmaDecode dstlen payload hdr).res ≠ E.SZ_OK
          then lzerr E (E.LzmaDecode dstlen payload hdr).res 0 else none } := by
  have hsub : u64_sub (payload.length + 5) LZMA_PROPS_SIZE = payload.length := by
    rw [u64_sub_props _ (by omega) hp]; omega
  have h1 : ((hdr ++ payload).drop 5).take payload.length = payload := by
    rw [← hh, List.drop_left, List.take_length]
  have h2 : (hdr ++ payload).take 5 = hdr := by
    rw [← hh, List.take_left]
  simp only [lzma_decompress, hsub]
  rw [show LZMA_PROPS_SIZE = 5 from rfl, h1, h2]
  split_ifs <;> rfl

/-- C6: a call of `lzma_compress` whose destination capacity is below the
five-byte header returns -1 without invoking the engine, and leaves the
destination buffer, the caller's length variable and the shared properties
record (whatever the handle, its level field included) unchanged. -/
theorem lzma_compress_small_capacity (E : LzmaSdk) (src : List uchar_t) (srclen : Nat)
    (dst : List uchar_t) (dstlen : Nat) (level : Int) (chdr : uchar_t)
    (data : Option CLzmaEncProps) (h : dstlen < 5) :
    ∃ out, lzma_compress E src srclen dst dstlen level chdr data = some out ∧
      out.ret = -1 ∧ out.calls = [] ∧ out.dst = dst ∧ out.dstlen = dstlen ∧
      out.data = data := by
  have h5 : dstlen < LZMA_PROPS_SIZE := h
  exact ⟨{ ret := -1, dst := dst, dstlen := dstlen, data := data, calls := [],
           diag := lzerr E SZ_ERROR_DESTLEN 1 },
    by simp only [lzma_compress, if_pos h5], rfl, rfl, rfl, rfl, rfl⟩

/-- C6, evaluated with capacity 4 and a record at level 9, called at level 3. -/
theorem lzma_compress_small_capacity_witness :
    (4 : Nat) < 5 ∧
    ∃ out, lzma_compress store_sdk [97, 98] 2 [1, 2, 3, 4] 4 3 0
        (some { store_props with level := 9 }) = some out ∧
      out.ret = -1 ∧ out.calls = [] ∧ out.dst = [1, 2, 3, 4] ∧ out.dstlen = 4 ∧
      out.data = some { store_props with level := 9 } :=
  ⟨by decide, lzma_compress_small_capacity store_sdk [97, 98] 2 [1, 2, 3, 4] 4 3 0
    (some { store_props with level := 9 }) (by decide)⟩

/-- The outcome of `lzma_compress` when the capacity covers the header and the
handle is not null. -/
theorem lzma_compress_some (E : LzmaSdk) (src : List uchar_t) (srclen : Nat)
    (dst : List uchar_t) (c : Nat) (level : Int) (chdr : uchar_t) (props0 : CLzmaEncProps)
    (h5 : 5 ≤ c) (hc : c < 2 ^ 64) :
    lzma_compress E src srclen dst c level chdr (some props0) = some
      { ret :=
          if (E.LzmaEncode (c - 5) (src.take srclen) { props0 with level := level } 5 0).res ≠ 0
          then -1 else 0
        dst := write_at
          (write_at dst 0
            (E.LzmaEncode (c - 5) (src.take srclen) { props0 with level := level } 5 0).propsEncoded)
          5 (E.LzmaEncode (c - 5) (src.take srclen) { props0 with level := level } 5 0).dest
        dstlen :=
          if (E.LzmaEncode (c - 5) (src.take srclen) { props0 with level := level } 5 0).res ≠ 0
          then (E.LzmaEncode (c - 5) (src.take srclen) { props0 with level := level } 5 0).destLen
          else u64_add
            (E.LzmaEncode (c - 5) (src.take srclen) { props0 with level := level } 5 0).destLen
            LZMA_PROPS_SIZE
        data := some { props0 with level := level }
        calls := [{ dest := 5, destLen := c - 5, srcLen := srclen,
                    props := { props0 with level := level },
                    propsEncoded := 0, propsSize := 5, writeEndMark := 0 }]
        diag :=
          if (E.LzmaEncode (c - 5) (src.take srclen) { props0 with level := level } 5 0).res ≠ 0
          then lzerr E
            (E.LzmaEncode (c - 5) (src.take srclen) { props0 with level := level } 5 0).res 1
          else none } := by
  have hge : ¬ c < LZMA_PROPS_SIZE := by unfold LZMA_PROPS_SIZE; omega
  have hsub := u64_sub_props c h5 hc
  simp only [lzma_compress, if_neg hge, hsub]
  rw [show LZMA_PROPS_SIZE = 5 from rfl]
  split_ifs <;> rfl

/-- C7: for every call of `lzma_compress` with capacity c >= 5 (and a non-null
handle), the engine is invoked once, asked to write the payload at destination
offset 5 with capacity c - 5 and the five-byte header at offset 0, and the
bytes it produces land at those offsets; and when the engine succeeds,
reporting a payload length n within the capacity it was given, the call
returns 0 with the length variable set to n + 5. -/
theorem lzma_compress_layout (E : LzmaSdk) (src : List uchar_t) (srclen : Nat)
    (dst : List uchar_t) (c : Nat) (level : Int) (chdr : uchar_t) (props0 : CLzmaEncProps)
    (h5 : 5 ≤ c) (hc : c < 2 ^ 64) :
    ∃ out, lzma_compress E src srclen dst c level chdr (some props0) = some out ∧
      out.calls = [{ dest := 5, destLen := c - 5, srcLen := srclen,
                     props := { props0 with level := level },
                     propsEncoded := 0, propsSize := 5, writeEndMark := 0 }] ∧
      out.dst = write_at
        (write_at dst 0
          (E.LzmaEncode (c - 5) (src.take srclen) { props0 with level := level } 5 0).propsEncoded)
        5 (E.LzmaEncode (c - 5) (src.take srclen) { props0 with level := level } 5 0).dest ∧
      ((E.LzmaEncode (c - 5) (src.take srclen) { props0 with level := level } 5 0).res = 0 →
        (E.LzmaEncode (c - 5) (src.take srclen) { props0 with level := level } 5 0).destLen
            ≤ c - 5 →
        out.ret = 0 ∧
        out.dstlen
          = (E.LzmaEncode (c - 5) (src.take srclen) { props0 with level := level } 5 0).destLen
            + 5) := by
  refine ⟨_, lzma_compress_some E src srclen dst c level chdr props0 h5 hc, rfl, rfl, ?_⟩
  intro hres hfit
  simp only [hres, ne_eq, not_true_eq_false, if_false]
  exact ⟨trivial, u64_add_props _ (by omega)⟩

/-- C7, evaluated with the storing engine on the two bytes "ab" and capacity 8. -/
theorem lzma_compress_layout_witness :
    ∃ out, lzma_compress store_sdk [97, 98] 2 [9, 9, 9, 9, 9, 9, 9, 9] 8 3 0
        (some store_props) = some out ∧
      out.calls = [{ dest := 5, destLen := 3, srcLen := 2,
                     props := { store_props with level := 3 },
                     propsEncoded := 0, propsSize := 5, writeEndMark := 0 }] ∧
      out.dst = [0, 0, 0, 0, 0, 97, 98, 9] ∧ out.ret = 0 ∧ out.dstlen = 7 := by
  obtain ⟨out, h1, h2, h3, h4⟩ :=
    lzma_compress_layout store_sdk [97, 98] 2 [9, 9, 9, 9, 9, 9, 9, 9] 8 3 0 store_props
      (by decide) (by decide)
  exact ⟨out, h1, h2, h3.trans (by decide), (h4 (by decide) (by decide)).1,
    (h4 (by decide) (by decide)).2⟩

/-- C8 fails on a three-byte segment: `lzma_decompress` has no length check, so
the subtraction `srclen - 5` wraps to 2^64 - 2, which is handed to the engine
as the payload length together with a five-byte header read from a three-byte
buffer; and the call returns whatever the engine decides, here 0. -/
theorem lzma_decompress_short_segment :
    (lzma_decompress store_sdk [1, 2, 3] 3 [] 0 0 0 none).call.srcLen = 2 ^ 64 - 2 ∧
    3 < (lzma_decompress store_sdk [1, 2, 3] 3 [] 0 0 0 none).call.srcLen ∧
    3 < (lzma_decompress store_sdk [1, 2, 3] 3 [] 0 0 0 none).call.propData
        + (lzma_decompress store_sdk [1, 2, 3] 3 [] 0 0 0 none).call.propSize ∧
    (lzma_decompress store_sdk [1, 2, 3] 3 [] 0 0 0 none).ret = 0 := by
  decide

/-! ## Round trip through the adapter -/

/-- The storing engine round-trips. -/
theorem store_sdk_round_trips : EngineRoundTrips store_sdk := by
  intro destLen src props writeEndMark h
  by_cases hfit : destLen < src.length
  · simp [store_sdk, LZMA_PROPS_SIZE, hfit] at h
  · have hle : src.length ≤ destLen := Nat.le_of_not_lt hfit
    simp [store_sdk, LZMA_PROPS_SIZE, hfit, hle]

/-- C2: with an engine that itself round-trips, for every buffer b and every
level L (0..14 in particular, pseudo-levels included) and every prior state of
the singleton: after `lzma_init` for compression, `lzma_compress` of b into a
destination whose capacity c covers the header and suffices for the engine
succeeds, and `lzma_decompress` applied to exactly the bytes compress
reported, with room for the original length, returns 0 and stores b byte for
byte. -/
theorem lzma_round_trip (E : LzmaSdk) (hE : EngineRoundTrips E)
    (p : Option CLzmaEncProps) (b : List uchar_t) (L nthreads : Int) (chunksize : Nat)
    (file_version : Int) (dst : List uchar_t) (c : Nat) (chdr : uchar_t) (dst2 : List uchar_t)
    (hb : b.length < 2 ^ 64) (h5 : 5 ≤ c) (hc : c < 2 ^ 64) (hdst : c ≤ dst.length)
    (hdst2 : b.length ≤ dst2.length)
    (henc : ∀ props ∈ (lzma_init E p L nthreads chunksize file_version COMPRESS).data,
      (E.LzmaEncode (c - 5) b
        { props with
          level := (lzma_init E p L nthreads chunksize file_version COMPRESS).level } 5 0).res
        = 0) :
    ∃ co,
      lzma_compress E b b.length dst c
          (lzma_init E p L nthreads chunksize file_version COMPRESS).level chdr
          (lzma_init E p L nthreads chunksize file_version COMPRESS).data = some co ∧
      co.ret = 0 ∧
      (lzma_decompress E (co.dst.take co.dstlen) co.dstlen dst2 b.length
          (lzma_init E p L nthreads chunksize file_version COMPRESS).level chdr
          (lzma_init E p L nthreads chunksize file_version COMPRESS).data).ret = 0 ∧
      (lzma_decompress E (co.dst.take co.dstlen) co.dstlen dst2 b.length
          (lzma_init E p L nthreads chunksize file_version COMPRESS).level chdr
          (lzma_init E p L nthreads chunksize file_version COMPRESS).data).dstlen = b.length ∧
      (lzma_decompress E (co.dst.take co.dstlen) co.dstlen dst2 b.length
          (lzma_init E p L nthreads chunksize file_version COMPRESS).level chdr
          (lzma_init E p L nthreads chunksize file_version COMPRESS).data).dst.take b.length
        = b := by
  obtain ⟨props0, hd⟩ := lzma_init_compress_handle E p L nthreads chunksize file_version
  generalize (lzma_init E p L nthreads chunksize file_version COMPRESS).level = lvl at henc ⊢
  rw [hd] at henc ⊢
  have hres := henc props0 rfl
  have hco := lzma_compress_some E b b.length dst c lvl chdr props0 h5 hc
  rw [List.take_length] at hco
  have hrt : _ ∧ _ ∧ _ ∧ _ := hE (c - 5) b { props0 with level := lvl } 0 hres
  obtain ⟨hlen, hfit, hhdr, hdec⟩ := hrt
  rw [show LZMA_PROPS_SIZE = 5 from rfl] at hlen hfit hhdr hdec
  refine ⟨_, hco, ?_, ?_⟩
  · simp only [hres, ne_eq, not_true_eq_false, if_false]
  · simp only [hres, ne_eq, not_true_eq_false, if_false]
    rw [u64_add_props _ (by omega), write_header_payload _ _ _ hhdr, ← hlen,
      take_header_payload _ _ _ hhdr,
      lzma_decompress_segment E _ _ dst2 b.length lvl chdr (some props0) hhdr (by omega),
      hdec]
    refine ⟨by simp, rfl, ?_⟩
    simp [write_at]

/-- C2, evaluated with the storing engine: level 13, no prior singleton, the
two bytes "ab" and a destination of capacity 8. -/
theorem lzma_round_trip_witness :
    ∃ co,
      lzma_compress store_sdk [97, 98] 2 [9, 9, 9, 9, 9, 9, 9, 9] 8 9 0
          (lzma_init store_sdk none 13 2 4096 0 COMPRESS).data = some co ∧
      co.ret = 0 ∧
      (lzma_decompress store_sdk (co.dst.take co.dstlen) co.dstlen [7, 7] 2 9 0
          (lzma_init store_sdk none 13 2 4096 0 COMPRESS).data).ret = 0 ∧
      (lzma_decompress store_sdk (co.dst.take co.dstlen) co.dstlen [7, 7] 2 9 0
          (lzma_init store_sdk none 13 2 4096 0 COMPRESS).data).dstlen = 2 ∧
      (lzma_decompress store_sdk (co.dst.take co.dstlen) co.dstlen [7, 7] 2 9 0
          (lzma_init store_sdk none 13 2 4096 0 COMPRESS).data).dst.take 2 = [97, 98] :=
  lzma_round_trip store_sdk store_sdk_round_trips none [97, 98] 13 2 4096 0
    [9, 9, 9, 9, 9, 9, 9, 9] 8 0 [7, 7] (by decide) (by decide) (by decide) (by decide)
    (by decide) (fun _ _ => rfl)

/-! ## Lifecycle of the singleton and the capability queries -/

/-- C11: `lzma_init` constructs the process-wide properties record if and only
if no record exists and the direction is COMPRESS; on an existing record a
later call, whatever its level, thread count and direction, leaves the record
as it is, returns it as the handle and returns 0; and for DECOMPRESS with no
record it creates none and succeeds with a null handle. -/
theorem lzma_init_singleton (E : LzmaSdk) (p : Option CLzmaEncProps) (r : CLzmaEncProps)
    (L nthreads : Int) (chunksize : Nat) (file_version : Int) (op : compress_op_t) :
    (lzma_init E p L nthreads chunksize file_version op).p
        = (if p = none ∧ op = COMPRESS then
            some (E.LzmaEncProps_Normalize (lzma_init_construct E L nthreads))
          else p) ∧
    (lzma_init E p L nthreads chunksize file_version op).data
        = (lzma_init E p L nthreads chunksize file_version op).p ∧
    lzma_init E (some r) L nthreads chunksize file_version op
        = { ret := 0, level := min L 9, data := some r, p := some r } ∧
    lzma_init E none L nthreads chunksize file_version DECOMPRESS
        = { ret := 0, level := min L 9, data := none, p := none } := by
  have hmin : (if L > 9 then (9 : Int) else L) = min L 9 := by
    split_ifs <;> omega
  refine ⟨?_, rfl, ?_, ?_⟩
  · cases p <;> cases op <;> simp [lzma_init]
  · simp [lzma_init, hmin]
  · simp [lzma_init, hmin]

/-- C12, as stated, fails: `lzma_props` reports that compression is not
multi-thread capable. -/
theorem lzma_props_not_mt_capable :
    (lzma_props { compress_mt_capable := 1, decompress_mt_capable := 1, buf_extra := 7,
                  c_max_threads := 4, delta2_span := 0 } 6 4096).compress_mt_capable ≠ 1 := by
  decide

/-- C12, amended: for every level and chunksize `lzma_mt_props` reports
compress_mt_capable = 1 and `lzma_props` reports compress_mt_capable = 0; both
report decompress_mt_capable = 0 and buf_extra = 0, and neither result depends
on level or chunksize. -/
theorem lzma_capabilities (data : algo_props_t) (level level2 : Int)
    (chunksize chunksize2 : Nat) :
    (lzma_mt_props data level chunksize).compress_mt_capable = 1 ∧
    (lzma_props data level chunksize).compress_mt_capable = 0 ∧
    (lzma_mt_props data level chunksize).decompress_mt_capable = 0 ∧
    (lzma_props data level chunksize).decompress_mt_capable = 0 ∧
    (lzma_mt_props data level chunksize).buf_extra = 0 ∧
    (lzma_props data level chunksize).buf_extra = 0 ∧
    lzma_mt_props data level chunksize = lzma_mt_props data level2 chunksize2 ∧
    lzma_props data level chunksize = lzma_props data level2 chunksize2 :=
  ⟨rfl, rfl, rfl, rfl, rfl, rfl, rfl, rfl⟩

/-! ## Further properties of the classifier -/

/-- C13: on a buffer of length 0 the loop leaves both counters at 0, the test
0 < 0 fails, and `analyze_buffer` returns `TYPE_UNKNOWN`. -/
theorem analyze_buffer_empty (src : List uchar_t) :
    analyze_loop src 0 = { tot8b := 0, lbytes := 0 } ∧
    ¬ (0 < u64_add (u64_add (0 >>> 1) (0 >>> 2)) (0 >>> 3)) ∧
    analyze_buffer [] ([] : List uchar_t).length = TYPE_UNKNOWN ∧
    analyze_buffer src 0 = TYPE_UNKNOWN := by
  refine ⟨by simp [analyze_loop], by decide, by decide, ?_⟩
  simp [analyze_buffer, analyze_loop, u64_add]

/-- The verdict on a buffer without high-bit bytes, for any length that fits
`uint64_t`. -/
theorem analyze_buffer_low (src : List uchar_t) (hlen : src.length < 2 ^ 64)
    (hno : ∀ b ∈ src, b.val < 128) :
    analyze_buffer src src.length =
      if control_count src < src.length / 2 + src.length / 4 + src.length / 8 then
        TYPE_TEXT
      else
        TYPE_UNKNOWN := by
  have hb : high_bit_count src = 0 := (high_bit_count_eq_zero src).2 hno
  rw [analyze_buffer_eq src hlen (by rw [hb, Nat.mul_zero]; exact U64_pos), hb]
  simp

/-- The verdict is a function of the length and the two counts. -/
theorem analyze_buffer_counts (src : List uchar_t) :
    analyze_buffer src src.length =
      if (128 * high_bit_count src) % U64 / 0x80 = 0 ∧
          control_count src % U64 <
            u64_add (u64_add (src.length >>> 1) (src.length >>> 2)) (src.length >>> 3) then
        TYPE_TEXT
      else
        TYPE_UNKNOWN := by
  unfold analyze_buffer
  simp only [analyze_loop_eq]

/-- C15, as stated, fails: seven bytes of which four are control bytes have
8*4 = 32 < 49 = 7*7, yet the three shifts give 3 + 1 + 0 = 4 and the verdict is
`TYPE_UNKNOWN`. -/
theorem seven_eighths_not_exact :
    (∀ b ∈ ([0, 0, 0, 0, 97, 97, 97] : List uchar_t), b.val < 128) ∧
    8 * control_count [0, 0, 0, 0, 97, 97, 97]
      < 7 * ([0, 0, 0, 0, 97, 97, 97] : List uchar_t).length ∧
    analyze_buffer [0, 0, 0, 0, 97, 97, 97] ([0, 0, 0, 0, 97, 97, 97] : List uchar_t).length
      ≠ TYPE_TEXT := by
  refine ⟨by decide, by decide, ?_⟩
  rw [analyze_buffer_low _ (by decide) (by decide)]
  decide

/-- C15, amended: for every buffer of length n (fitting `uint64_t`) with no
high-bit byte and c bytes below 32, `analyze_buffer` returns `TYPE_TEXT` if and
only if c < n/2 + n/4 + n/8, each quotient rounded down; a `TYPE_TEXT` verdict
implies 8*c < 7*n, and the two conditions coincide when n is a multiple of 8. -/
theorem analyze_buffer_threshold (src : List uchar_t) (hlen : src.length < 2 ^ 64)
    (hno : ∀ b ∈ src, b.val < 128) :
    (analyze_buffer src src.length = TYPE_TEXT ↔
      control_count src < src.length / 2 + src.length / 4 + src.length / 8) ∧
    (analyze_buffer src src.length = TYPE_TEXT →
      8 * control_count src < 7 * src.length) ∧
    (src.length % 8 = 0 →
      (analyze_buffer src src.length = TYPE_TEXT ↔
        8 * control_count src < 7 * src.length)) := by
  rw [analyze_buffer_low src hlen hno]
  have key : (if control_count src < src.length / 2 + src.length / 4 + src.length / 8 then
      TYPE_TEXT else TYPE_UNKNOWN) = TYPE_TEXT ↔
      control_count src < src.length / 2 + src.length / 4 + src.length / 8 := by
    split_ifs with h
    · simp [h]
    · simp [h]
  rw [key]
  refine ⟨Iff.rfl, ?_, ?_⟩
  · intro h
    omega
  · intro h8
    constructor
    · intro h
      omega
    · intro h
      omega

/-- C15 amended, evaluated on eight bytes of which one is a control byte. -/
theorem analyze_buffer_threshold_witness :
    analyze_buffer [0, 97, 97, 97, 97, 97, 97, 97]
        ([0, 97, 97, 97, 97, 97, 97, 97] : List uchar_t).length = TYPE_TEXT ∧
    8 * control_count [0, 97, 97, 97, 97, 97, 97, 97]
      < 7 * ([0, 97, 97, 97, 97, 97, 97, 97] : List uchar_t).length :=
  ⟨(analyze_buffer_threshold [0, 97, 97, 97, 97, 97, 97, 97] (by decide) (by decide)).1.2
      (by decide),
    (analyze_buffer_threshold [0, 97, 97, 97, 97, 97, 97, 97] (by decide) (by decide)).2.1
      ((analyze_buffer_threshold [0, 97, 97, 97, 97, 97, 97, 97] (by decide) (by decide)).1.2
        (by decide))⟩

/-- C18: whenever `analyze_buffer` returns `TYPE_TEXT` for a buffer of length
n < 2^57, the buffer has at least 2 bytes, none of them with the
most-significant bit set, and its count c of bytes below 32 satisfies
8*c < 7*n; consequently every buffer of length 0 or 1 is classified
`TYPE_UNKNOWN`, whatever its content. -/
theorem analyze_buffer_text_sound (src : List uchar_t) (hn : src.length < 2 ^ 57) :
    (analyze_buffer src src.length = TYPE_TEXT →
      2 ≤ src.length ∧ (∀ b ∈ src, b.val < 128) ∧
        8 * control_count src < 7 * src.length) ∧
    (src.length ≤ 1 → analyze_buffer src src.length = TYPE_UNKNOWN) := by
  obtain ⟨hlen, hhb⟩ := high_bit_bound src hn
  rw [analyze_buffer_eq src hlen hhb]
  constructor
  · intro h
    split_ifs at h with hc
    obtain ⟨h0, hlt⟩ := hc
    refine ⟨by omega, (high_bit_count_eq_zero src).1 h0, by omega⟩
  · intro h1
    rw [if_neg]
    rintro ⟨-, hlt⟩
    omega

/-- C18, evaluated on the two bytes "ab" and on the single byte "a". -/
theorem analyze_buffer_text_sound_witness :
    (2 ≤ ([97, 98] : List uchar_t).length ∧ (∀ b ∈ ([97, 98] : List uchar_t), b.val < 128) ∧
      8 * control_count [97, 98] < 7 * ([97, 98] : List uchar_t).length) ∧
    analyze_buffer [97] ([97] : List uchar_t).length = TYPE_UNKNOWN :=
  ⟨(analyze_buffer_text_sound [97, 98] (by decide)).1 (by decide),
    (analyze_buffer_text_sound [97] (by decide)).2 (by decide)⟩

/-- C20: the classification of a buffer is unchanged by any permutation of its
bytes; more generally two buffers with the same length, the same number of
high-bit bytes and the same number of bytes below 32 get the same verdict. -/
theorem analyze_buffer_perm (src src2 : List uchar_t) :
    (src.Perm src2 → analyze_buffer src src.length = analyze_buffer src2 src2.length) ∧
    (src.length = src2.length → high_bit_count src = high_bit_count src2 →
      control_count src = control_count src2 →
      analyze_buffer src src.length = analyze_buffer src2 src2.length) := by
  have gen : src.length = src2.length → high_bit_count src = high_bit_count src2 →
      control_count src = control_count src2 →
      analyze_buffer src src.length = analyze_buffer src2 src2.length := by
    intro hl hh hc
    rw [analyze_buffer_counts src, analyze_buffer_counts src2, hl, hh, hc]
  refine ⟨fun hp => gen hp.length_eq ?_ ?_, gen⟩
  · exact hp.countP_eq _
  · exact hp.countP_eq _

/-- C20, evaluated on a three-byte buffer and its reversal. -/
theorem analyze_buffer_perm_witness :
    analyze_buffer [0, 97, 200] ([0, 97, 200] : List uchar_t).length
      = analyze_buffer [200, 97, 0] ([200, 97, 0] : List uchar_t).length :=
  (analyze_buffer_perm [0, 97, 200] [200, 97, 0]).1
    (List.reverse_perm ([200, 97, 0] : List uchar_t))

/-! ## Effects and error reporting of compress and decompress -/

/-- C16: every call of `lzma_compress` with capacity at least 5 (and a non-null
handle) stores its level argument verbatim, unclamped, in the shared record
before the engine is invoked, so that the engine sees it, and leaves
dictionary size, fast-bytes, match-cycles and thread count as they were; after
two successive calls at levels L1 and L2 the record holds L2. -/
theorem lzma_compress_record_effect (E : LzmaSdk) (src src2 dst dst2 : List uchar_t)
    (srclen srclen2 c c2 : Nat) (L1 L2 : Int) (chdr chdr2 : uchar_t) (props0 : CLzmaEncProps)
    (h5 : 5 ≤ c) (hc : c < 2 ^ 64) (h52 : 5 ≤ c2) (hc2 : c2 < 2 ^ 64) :
    ∃ out1 out2,
      lzma_compress E src srclen dst c L1 chdr (some props0) = some out1 ∧
      out1.data = some { level := L1, dictSize := props0.dictSize, fb := props0.fb,
                         mc := props0.mc, numThreads := props0.numThreads,
                         litprob_sz := props0.litprob_sz } ∧
      out1.calls.map EncodeCall.props
        = [{ level := L1, dictSize := props0.dictSize, fb := props0.fb,
             mc := props0.mc, numThreads := props0.numThreads,
             litprob_sz := props0.litprob_sz }] ∧
      lzma_compress E src2 srclen2 dst2 c2 L2 chdr2 out1.data = some out2 ∧
      out2.data = some { level := L2, dictSize := props0.dictSize, fb := props0.fb,
                         mc := props0.mc, numThreads := props0.numThreads,
                         litprob_sz := props0.litprob_sz } :=
  ⟨_, _, lzma_compress_some E src srclen dst c L1 chdr props0 h5 hc, rfl, rfl,
    lzma_compress_some E src2 srclen2 dst2 c2 L2 chdr2 _ h52 hc2, rfl⟩

/-- C16, evaluated with the storing engine: a call at level 13 followed by a
call at level 2 on a record built at level 9. -/
theorem lzma_compress_record_effect_witness :
    ∃ out1 out2,
      lzma_compress store_sdk [97, 98] 2 [9, 9, 9, 9, 9, 9, 9, 9] 8 13 0
          (some { store_props with level := 9, fb := 64 }) = some out1 ∧
      out1.data = some { level := 13, dictSize := 0, fb := 64, mc := 0, numThreads := -1,
                         litprob_sz := 0 } ∧
      out1.calls.map EncodeCall.props
        = [{ level := 13, dictSize := 0, fb := 64, mc := 0, numThreads := -1,
             litprob_sz := 0 }] ∧
      lzma_compress store_sdk [99] 1 [9, 9, 9, 9, 9, 9] 6 2 0 out1.data = some out2 ∧
      out2.data = some { level := 2, dictSize := 0, fb := 64, mc := 0, numThreads := -1,
                         litprob_sz := 0 } :=
  lzma_compress_record_effect store_sdk [97, 98] [99] [9, 9, 9, 9, 9, 9, 9, 9]
    [9, 9, 9, 9, 9, 9] 2 1 8 6 13 2 0 0 { store_props with level := 9, fb := 64 }
    (by decide) (by decide) (by decide) (by decide)

/-- The outcome of `lzma_compress` when the capacity is below the header size. -/
theorem lzma_compress_small (E : LzmaSdk) (src : List uchar_t) (srclen : Nat)
    (dst : List uchar_t) (dstlen : Nat) (level : Int) (chdr : uchar_t)
    (data : Option CLzmaEncProps) (h : dstlen < 5) :
    lzma_compress E src srclen dst dstlen level chdr data = some
      { ret := -1, dst := dst, dstlen := dstlen, data := data, calls := [],
        diag := lzerr E SZ_ERROR_DESTLEN 1 } := by
  have h5 : dstlen < LZMA_PROPS_SIZE := h
  simp only [lzma_compress, if_pos h5]

/-- The output-overflow code is the only one for which the compress-time
diagnostic is empty. -/
theorem lzerr_silent (E : LzmaSdk) (err : Int) :
    lzerr E err 1 = none → err = E.SZ_ERROR_OUTPUT_EOF := by
  unfold lzerr
  intro h
  split_ifs at h
  assumption

/-- The decompress-time diagnostic is never empty. -/
theorem lzerr_decompress_loud (E : LzmaSdk) (err : Int) : lzerr E err 0 ≠ none := by
  unfold lzerr
  split_ifs <;> first | exact Option.some_ne_none _ | exact absurd rfl ‹¬ (0 : Int) = 0›

/-- C17: `lzma_compress` (with a non-null handle) returns 0 if and only if the
capacity is at least 5 and the engine returns 0, and returns -1 otherwise, in
particular for every non-zero engine result, whatever `lzerr` prints for it
(nothing for the output-overflow code); `lzma_decompress` returns 0 if and only
if the engine returns SZ_OK and returns -1 otherwise, so with SZ_OK = 0 every
non-zero engine result gives -1. -/
theorem lzma_no_error_swallowed (E : LzmaSdk) (src dst dsrc ddst : List uchar_t)
    (srclen c dsrclen ddstlen : Nat) (level dlevel : Int) (chdr dchdr : uchar_t)
    (props0 : CLzmaEncProps) (ddata : Option CLzmaEncProps) (hc : c < 2 ^ 64) :
    (∃ out, lzma_compress E src srclen dst c level chdr (some props0) = some out ∧
      (out.ret = 0 ↔ 5 ≤ c ∧
        (E.LzmaEncode (c - 5) (src.take srclen) { props0 with level := level } 5 0).res = 0) ∧
      (out.ret ≠ 0 → out.ret = -1) ∧
      (5 ≤ c →
        (E.LzmaEncode (c - 5) (src.take srclen) { props0 with level := level } 5 0).res ≠ 0 →
        out.ret = -1 ∧
        out.diag = lzerr E
          (E.LzmaEncode (c - 5) (src.take srclen) { props0 with level := level } 5 0).res 1)) ∧
    ((lzma_decompress E dsrc dsrclen ddst ddstlen dlevel dchdr ddata).ret = 0 ↔
      (E.LzmaDecode ddstlen ((dsrc.drop 5).take (u64_sub dsrclen 5)) (dsrc.take 5)).res
        = E.SZ_OK) ∧
    ((lzma_decompress E dsrc dsrclen ddst ddstlen dlevel dchdr ddata).ret ≠ 0 →
      (lzma_decompress E dsrc dsrclen ddst ddstlen dlevel dchdr ddata).ret = -1) ∧
    (E.SZ_OK = 0 →
      (E.LzmaDecode ddstlen ((dsrc.drop 5).take (u64_sub dsrclen 5)) (dsrc.take 5)).res ≠ 0 →
      (lzma_decompress E dsrc dsrclen ddst ddstlen dlevel dchdr ddata).ret = -1) := by
  have hd : (lzma_decompress E dsrc dsrclen ddst ddstlen dlevel dchdr ddata).ret
      = if (E.LzmaDecode ddstlen ((dsrc.drop 5).take (u64_sub dsrclen 5)) (dsrc.take 5)).res
          ≠ E.SZ_OK then -1 else 0 := by
    simp only [lzma_decompress]
    rw [show LZMA_PROPS_SIZE = 5 from rfl]
    split_ifs <;> rfl
  refine ⟨?_, ?_, ?_, ?_⟩
  · by_cases h5 : 5 ≤ c
    · refine ⟨_, lzma_compress_some E src srclen dst c level chdr props0 h5 hc, ?_, ?_, ?_⟩
      · by_cases hres :
            (E.LzmaEncode (c - 5) (src.take srclen) { props0 with level := level } 5 0).res = 0
        · simp [hres, h5]
        · simp [hres]
      · intro h
        split_ifs at h ⊢ <;> simp_all
      · intro _ hres
        simp [hres]
    · have hlt : c < 5 := Nat.lt_of_not_le h5
      refine ⟨_, lzma_compress_small E src srclen dst c level chdr (some props0) hlt,
        ?_, ?_, ?_⟩
      · constructor
        · intro h
          exact absurd h (show ¬ ((-1 : Int) = 0) by decide)
        · rintro ⟨h, -⟩
          exact absurd h h5
      · intro _
        rfl
      · intro h
        exact absurd h h5
  · rw [hd]
    split_ifs with h <;> simp_all
  · rw [hd]
    intro h
    split_ifs at h ⊢ <;> simp_all
  · intro h0 hres
    rw [hd, if_pos]
    rw [h0]
    exact hres

/-- C17, evaluated with the strict engine: a compress whose payload overflows
the capacity (engine code 7, no diagnostic) and a decompress of a segment with
a bad header (engine code 1) both return -1. -/
theorem lzma_no_error_swallowed_witness :
    (∃ out, lzma_compress strict_sdk [97, 98] 2 [9, 9, 9, 9, 9, 9] 6 3 0 (some store_props)
        = some out ∧ out.ret = -1 ∧ out.diag = none) ∧
    (lzma_decompress strict_sdk [1, 2, 3, 4, 5, 97] 6 [7] 1 0 0 none).ret = -1 := by
  obtain ⟨⟨out, ho, -, -, h3⟩, -, -, h4⟩ :=
    lzma_no_error_swallowed strict_sdk [97, 98] [9, 9, 9, 9, 9, 9] [1, 2, 3, 4, 5, 97] [7]
      2 6 6 1 3 0 0 0 store_props none (by decide)
  exact ⟨⟨out, ho, (h3 (by decide) (by decide)).1, (h3 (by decide) (by decide)).2.trans rfl⟩,
    h4 rfl (by decide)⟩

/-- C19: two calls of `lzma_decompress` on the same source, source length,
destination and capacity that differ in the level argument, the chunk-header
byte or the handle (null or any record) hand the same arguments to the engine
and produce the same return value, output bytes, output length and diagnostic;
and the record behind each handle is left as it was. -/
theorem lzma_decompress_independent (E : LzmaSdk) (src dst : List uchar_t)
    (srclen dstlen : Nat) (level level2 : Int) (chdr chdr2 : uchar_t)
    (data data2 : Option CLzmaEncProps) :
    (lzma_decompress E src srclen dst dstlen level chdr data).call
      = (lzma_decompress E src srclen dst dstlen level2 chdr2 data2).call ∧
    (lzma_decompress E src srclen dst dstlen level chdr data).ret
      = (lzma_decompress E src srclen dst dstlen level2 chdr2 data2).ret ∧
    (lzma_decompress E src srclen dst dstlen level chdr data).dst
      = (lzma_decompress E src srclen dst dstlen level2 chdr2 data2).dst ∧
    (lzma_decompress E src srclen dst dstlen level chdr data).dstlen
      = (lzma_decompress E src srclen dst dstlen level2 chdr2 data2).dstlen ∧
    (lzma_decompress E src srclen dst dstlen level chdr data).diag
      = (lzma_decompress E src srclen dst dstlen level2 chdr2 data2).diag ∧
    (lzma_decompress E src srclen dst dstlen level chdr data).data = data ∧
    (lzma_decompress E src srclen dst dstlen level2 chdr2 data2).data = data2 := by
  simp only [lzma_decompress]
  split_ifs <;> exact ⟨rfl, rfl, rfl, rfl, rfl, rfl, rfl⟩

end Pcompress
